import Mathlib

/-!
# http_go_lib: the request execution pipeline

A shallow embedding of `client.go` (`makeRequest`) and `logger.go`
(`LoggingMiddleware`, `loggingRoundTripper.RoundTrip`).

Conventions of the embedding.

* Effects are explicit: every operation that touches the outside world takes a
  world `σ` and returns the next one.  The standard library and the Go runtime
  (`url.Parse`, `http.NewRequest`, `http.Client.Do`, the `select` between
  `ctx.Done()` and `time.After`, `httputil.Dump*`, `os.Stderr`, the clock) are
  not part of the repository; they are the fields of `Lib`, and a theorem that
  needs one of their properties states it as a hypothesis.
* A Go result pair `(*http.Response, error)` returned by `makeRequest` is the
  pair of options carried by `Outcome.returned`; a run-time panic is
  `Outcome.panicked`.
* Go `int` is the 64-bit two's complement integer: the loop counter is an `Int`
  wrapped by `wrapInt` after `i++`.  A loop that may not end runs on fuel;
  `none` means that the fuel ran out before `makeRequest` returned.
* `Run.attempts` and `Run.waits` are history counters: they count the calls of
  `client.Do` and the executions of the `select` statement.
-/

namespace HttpGoLib

/-! ## Data model -/

/-- Go `error` value, identified by its message. -/
abbrev GoError := String

/-- Go `time.Duration`, in nanoseconds. -/
abbrev Duration := Int

/-- Handle of a `context.Context` that is not nil; whether it is done is a fact
of the world, read by `Lib.selectDone` and by `Lib.clientDo`. -/
abbrev Context := Nat

/-- Dynamically typed Go value (`interface{}`), as stored in `QueryParams`. -/
inductive GoValue where
  | str (s : String)
  | int (n : Int)
  | bool (b : Bool)
  | nil
  deriving DecidableEq, Repr

/-- Value carried by a run-time panic.  `typeAssertion v` is the
`*runtime.TypeAssertionError` raised by `v.(string)` when `v` is no string. -/
inductive Panic where
  | typeAssertion (v : GoValue)
  deriving DecidableEq, Repr

/-- Byte stream (`io.Reader`) as its consumer sees it: reading yields `data`
and then ends with end-of-file (`fault = none`) or with the read error `fault`. -/
structure Body where
  data : List Nat
  fault : Option GoError
  deriving DecidableEq, Repr

/-- Go `url.Values` and `http.Header`: the values stored under each key, the
empty list for a key that is absent. -/
abbrev Values := String → List String

/-- The empty `url.Values`. -/
def Values.empty : Values := fun _ => []

/-- Go `Values.Set`: `v[key] = []string{value}`, replacing what was there. -/
def Values.Set (v : Values) (key value : String) : Values :=
  fun k => if k = key then [value] else v k

/-- Go `url.URL`.  `RawQuery` is kept in decoded form, as the multimap that
`u.Query()` returns: `u.RawQuery = query.Encode()` stores the multimap, and the
percent-encoding that `Encode` performs and that parsing `u.String()` undoes
belongs to the standard library. -/
structure URL where
  Scheme : String
  Host : String
  Path : String
  RawQuery : Values

/-- Go `(*URL).Query`. -/
def URL.Query (u : URL) : Values := u.RawQuery

/-- Go `*http.Request`, the fields `makeRequest` sets. -/
structure Request where
  Method : String
  URL : URL
  Header : Values
  Body : Option Body
  ctx : Context

/-- Go `*http.Response`, as far as a caller observes it. -/
structure Response where
  StatusCode : Int
  Header : List (String × String)
  Body : Body
  deriving DecidableEq, Repr

/-- Result of one send, the Go pair `(resp, err)` of `RoundTrip` or of
`client.Do`: a response with a nil error, or an error (the response that may
come with an error is never looked at by the package).  A sender returns; a
sender that panics or never returns is outside the model. -/
abbrev SendResult := Except GoError Response

instance instDecidableEqSendResult : DecidableEq SendResult
  | Except.ok a, Except.ok b =>
      if h : a = b then isTrue (congrArg Except.ok h)
      else isFalse (fun h2 => h (Except.ok.inj h2))
  | Except.error a, Except.error b =>
      if h : a = b then isTrue (congrArg Except.error h)
      else isFalse (fun h2 => h (Except.error.inj h2))
  | Except.ok _, Except.error _ => isFalse (fun h => Except.noConfusion h)
  | Except.error _, Except.ok _ => isFalse (fun h => Except.noConfusion h)

/-- The `RoundTrip` method of a transport. -/
abbrev RoundTrip (σ : Type) := Request → σ → SendResult × σ

/-- Go `http.RoundTripper` interface value; `none` is the nil interface. -/
abbrev RoundTripper (σ : Type) := Option (RoundTrip σ)

/-- Go `Middleware`: takes a round tripper and returns a modified one.  Building
the round tripper has no effect on the world; calling it has. -/
abbrev Middleware (σ : Type) := RoundTripper σ → RoundTripper σ

/-- Go `LogLevel`, an `int`. -/
abbrev LogLevel := Int

/-- LogLevelNone disables logging. -/
def LogLevelNone : LogLevel := 0

/-- LogLevelBasic logs basic request and response information. -/
def LogLevelBasic : LogLevel := 1

/-- LogLevelBody logs request and response bodies as well. -/
def LogLevelBody : LogLevel := 2

/-- Go `RequestOptions` (the value behind a pointer that is not nil).  A Go map
is given by its entries in the order in which `range` visits them; the keys of
a map are distinct. -/
structure RequestOptions (σ : Type) where
  Headers : List (String × String)
  Body : Option Body
  MaxRetries : Int
  RetryWait : Duration
  Middlewares : List (Middleware σ)
  Timeout : Duration
  QueryParams : List (String × GoValue)
  LogLevel : LogLevel
  LogTransport : Bool

/-- Go `http.Client`, the two fields `makeRequest` touches. -/
structure Client (σ : Type) where
  Timeout : Duration
  Transport : RoundTripper σ

/-- The standard library and runtime operations the package calls. -/
structure Lib (σ : Type) where
  /-- Go `url.Parse`. -/
  urlParse : String → Except GoError URL
  /-- The error of `http.NewRequest(method, u.String(), body)`, if any. -/
  newRequestCheck : String → URL → Option GoError
  /-- Go `textproto.CanonicalMIMEHeaderKey`, applied by `Header.Set`. -/
  canonicalHeaderKey : String → String
  /-- Go `http.DefaultTransport`. -/
  defaultTransport : RoundTrip σ
  /-- Go `(*http.Client).Do`. -/
  clientDo : Client σ → Request → σ → SendResult × σ
  /-- The `select` of the retry loop: `true` when the `ctx.Done()` case is
  taken, `false` when the `time.After(d)` case is taken. -/
  selectDone : Context → Duration → σ → Bool × σ
  /-- Go `time.Now`, in nanoseconds. -/
  now : σ → Int
  /-- Go `fmt.Fprintf(os.Stderr, ...)` of an already formatted text. -/
  stderrWrite : String → σ → σ
  /-- Go `httputil.DumpRequestOut`: the dump or the error, and the request as
  the call leaves it. -/
  dumpRequestOut : Request → Bool → Except GoError String × Request
  /-- Go `httputil.DumpResponse`: the dump or the error, and the response as
  the call leaves it. -/
  dumpResponse : Response → Bool → Except GoError String × Response
  /-- Rendering of a `time.Duration` by the `%s` verb. -/
  formatDuration : Duration → String

/-- How a call of `makeRequest` ends. -/
inductive Outcome where
  | returned (resp : Option Response) (err : Option GoError)
  | panicked (p : Panic)
  deriving DecidableEq, Repr

/-- A finished call of `makeRequest`: how it ended, how many times `client.Do`
was called, how many times the `select` statement ran, and the world it left. -/
structure Run (σ : Type) where
  outcome : Outcome
  attempts : Nat
  waits : Nat
  world : σ
  deriving DecidableEq, Repr

/-! ## logger.go -/

/-- Go struct `loggingRoundTripper`.  `LoggingMiddleware`, its only
constructor, stores a transport that is not nil. -/
structure loggingRoundTripper (σ : Type) where
  transport : RoundTrip σ
  logLevel : LogLevel

/-- Go `(*loggingRoundTripper).RoundTrip`. -/
def loggingRoundTripper.RoundTrip {σ : Type} (lib : Lib σ) (lrt : loggingRoundTripper σ)
    (req : Request) (w : σ) : SendResult × σ :=
  let start := lib.now w
  -- Log the request based on the log level
  let logged : Request × σ :=
    if lrt.logLevel ≥ LogLevelBasic then
      match lib.dumpRequestOut req (decide (lrt.logLevel = LogLevelBody)) with
      | (Except.error err, req1) =>
          (req1, lib.stderrWrite ("Error dumping request: " ++ err ++ "\n") w)
      | (Except.ok reqDump, req1) =>
          (req1, lib.stderrWrite ("Request: \n" ++ reqDump ++ "\n") w)
    else (req, w)
  -- call the RoundTrip method of the wrapped transport
  match lrt.transport logged.1 logged.2 with
  | (Except.error err, w2) => (Except.error err, w2)
  | (Except.ok resp, w2) =>
      -- Log the response based on the log level
      if lrt.logLevel ≥ LogLevelBasic then
        match lib.dumpResponse resp (decide (lrt.logLevel = LogLevelBody)) with
        | (Except.error err, resp1) =>
            (Except.ok resp1, lib.stderrWrite ("Error dumping response: " ++ err ++ "\n") w2)
        | (Except.ok respDump, resp1) =>
            let elapsed := lib.now w2 - start
            (Except.ok resp1,
              lib.stderrWrite ("Response (in " ++ lib.formatDuration elapsed ++ "): \n"
                ++ respDump ++ "\n") w2)
      else (Except.ok resp, w2)

/-- Go `LoggingMiddleware`. -/
def LoggingMiddleware {σ : Type} (lib : Lib σ) (rt : RoundTripper σ) (logLevel : LogLevel) :
    RoundTripper σ :=
  let rt : RoundTrip σ :=
    match rt with
    | none => lib.defaultTransport
    | some t => t
  some (loggingRoundTripper.RoundTrip lib ⟨rt, logLevel⟩)

/-! ## client.go -/

/-- Largest Go `int`. -/
def maxInt : Int := 9223372036854775807

/-- Two's complement wrap-around of Go `int` arithmetic. -/
def wrapInt (x : Int) : Int :=
  (x + 9223372036854775808) % 18446744073709551616 - 9223372036854775808

/-- Lines 37-39 of `makeRequest`: `query.Set(key, value.(string))` for each
entry of `QueryParams`.  The type assertion panics on a value that is no
string, and the loop stops there. -/
def mergeQuery (query : Values) : List (String × GoValue) → Except Panic Values
  | [] => Except.ok query
  | (key, GoValue.str value) :: rest => mergeQuery (Values.Set query key value) rest
  | (_, value) :: _ => Except.error (Panic.typeAssertion value)

/-- Go `http.NewRequest(method, u.String(), body)`: the error of the standard
library, or a request with the method, URL and body given, no header, and the
background context. -/
def newRequest {σ : Type} (lib : Lib σ) (method : String) (u : URL) (body : Option Body) :
    Except GoError Request :=
  match lib.newRequestCheck method u with
  | some err => Except.error err
  | none => Except.ok ⟨method, u, Values.empty, body, 0⟩

/-- Go `(*Request).WithContext`. -/
def Request.WithContext (req : Request) (ctx : Context) : Request :=
  { req with ctx := ctx }

/-- Lines 51-53 of `makeRequest`: `req.Header.Set(key, value)` for each entry
of `Headers`. -/
def setHeaders {σ : Type} (lib : Lib σ) (req : Request) : List (String × String) → Request
  | [] => req
  | (key, value) :: rest =>
      setHeaders lib { req with Header := Values.Set req.Header (lib.canonicalHeaderKey key) value }
        rest

/-- How lines 30-53 of `makeRequest` end: with an error returned to the
caller, with a panic, or with the request that the attempts will send. -/
inductive Prepared where
  | failed (err : GoError)
  | panicked (p : Panic)
  | ready (req : Request)

/-- Lines 30-53 of `makeRequest`: parse the URL, merge the query parameters,
create the request, bind the context, set the headers. -/
def prepareRequest {σ : Type} (lib : Lib σ) (ctx : Context) (method urlStr : String)
    (options : RequestOptions σ) : Prepared :=
  -- Parse the url and add query parameters
  match lib.urlParse urlStr with
  | Except.error err => Prepared.failed err
  | Except.ok u =>
      match mergeQuery u.Query options.QueryParams with
      | Except.error p => Prepared.panicked p
      | Except.ok query =>
          let u : URL := { u with RawQuery := query }
          -- create a new HTTP request with the specified method, URL, and body
          match newRequest lib method u options.Body with
          | Except.error err => Prepared.failed err
          | Except.ok req =>
              -- Add the context to the request, set custom headers
              Prepared.ready (setHeaders lib (req.WithContext ctx) options.Headers)

/-- Lines 59-61 of `makeRequest`:
`client.Transport = middleware(client.Transport)` for each middleware. -/
def applyMiddlewares {σ : Type} (client : Client σ) : List (Middleware σ) → Client σ
  | [] => client
  | middleware :: rest => applyMiddlewares { client with Transport := middleware client.Transport } rest

/-- Lines 55-66 of `makeRequest`: the client whose `Do` performs the attempts.
The composite literal leaves `Transport` nil. -/
def buildClient {σ : Type} (lib : Lib σ) (options : RequestOptions σ) : Client σ :=
  let client : Client σ := ⟨options.Timeout, none⟩
  let client := applyMiddlewares client options.Middlewares
  -- wrap the transport with logging middleware if logTransport is true
  if options.LogTransport then
    { client with Transport := LoggingMiddleware lib client.Transport options.LogLevel }
  else client

/-- Lines 69-84 of `makeRequest`, entered at the loop condition with counter
`i`, last error `err`, and the history counters. -/
def retryLoop {σ : Type} (lib : Lib σ) (client : Client σ) (ctx : Context) (req : Request)
    (options : RequestOptions σ) :
    Nat → Int → Option GoError → Nat → Nat → σ → Option (Run σ)
  | 0, _, _, _, _, _ => none
  | fuel + 1, i, err, attempts, waits, w =>
      if i ≤ options.MaxRetries then
        match lib.clientDo client req w with
        | (Except.ok resp, w1) => some ⟨Outcome.returned (some resp) none, attempts + 1, waits, w1⟩
        | (Except.error err1, w1) =>
            match lib.selectDone ctx options.RetryWait w1 with
            | (true, w2) =>
                some ⟨Outcome.returned none (some "request canceled"), attempts + 1, waits + 1, w2⟩
            | (false, w2) =>
                retryLoop lib client ctx req options fuel (wrapInt (i + 1)) (some err1)
                  (attempts + 1) (waits + 1) w2
      else some ⟨Outcome.returned none err, attempts, waits, w⟩

/-- Go `makeRequest`. -/
def makeRequest {σ : Type} (lib : Lib σ) (fuel : Nat) (ctx : Context) (method urlStr : String)
    (options : RequestOptions σ) (w : σ) : Option (Run σ) :=
  match prepareRequest lib ctx method urlStr options with
  | Prepared.failed err => some ⟨Outcome.returned none (some err), 0, 0, w⟩
  | Prepared.panicked p => some ⟨Outcome.panicked p, 0, 0, w⟩
  | Prepared.ready req =>
      -- perform the request with retries
      retryLoop lib (buildClient lib options) ctx req options fuel 0 none 0 0 w

/-! ## method.go -/

/-- Get sends an HTTP GET request to the specified URL with the given options. -/
def Get {σ : Type} (lib : Lib σ) (fuel : Nat) (ctx : Context) (url : String)
    (options : RequestOptions σ) (w : σ) : Option (Run σ) :=
  makeRequest lib fuel ctx "GET" url options w

/-- Post sends an HTTP POST request to the specified URL with the given options. -/
def Post {σ : Type} (lib : Lib σ) (fuel : Nat) (ctx : Context) (url : String)
    (options : RequestOptions σ) (w : σ) : Option (Run σ) :=
  makeRequest lib fuel ctx "POST" url options w

/-- Put sends an HTTP PUT request to the specified URL with the given options. -/
def Put {σ : Type} (lib : Lib σ) (fuel : Nat) (ctx : Context) (url : String)
    (options : RequestOptions σ) (w : σ) : Option (Run σ) :=
  makeRequest lib fuel ctx "PUT" url options w

/-- Delete sends an HTTP DELETE request to the specified URL with the given options. -/
def Delete {σ : Type} (lib : Lib σ) (fuel : Nat) (ctx : Context) (url : String)
    (options : RequestOptions σ) (w : σ) : Option (Run σ) :=
  makeRequest lib fuel ctx "DELETE" url options w

/-- Head sends an HTTP HEAD request to the specified URL with the given options. -/
def Head {σ : Type} (lib : Lib σ) (fuel : Nat) (ctx : Context) (url : String)
    (options : RequestOptions σ) (w : σ) : Option (Run σ) :=
  makeRequest lib fuel ctx "HEAD" url options w

/-- Patch sends an HTTP PATCH request with the given context, URL, and options. -/
def Patch {σ : Type} (lib : Lib σ) (fuel : Nat) (ctx : Context) (url : String)
    (options : RequestOptions σ) (w : σ) : Option (Run σ) :=
  makeRequest lib fuel ctx "PATCH" url options w

/-- Options sends an HTTP OPTIONS request with the given context, URL, and options. -/
def Options {σ : Type} (lib : Lib σ) (fuel : Nat) (ctx : Context) (url : String)
    (options : RequestOptions σ) (w : σ) : Option (Run σ) :=
  makeRequest lib fuel ctx "OPTIONS" url options w

/-! ## The path of failed attempts

The worlds and results met by a call whose attempts keep failing and whose
waits keep running to their end. -/

/-- The world in which attempt `j` starts, when every earlier attempt failed
and every earlier wait ran to its end. -/
def worldBefore {σ : Type} (lib : Lib σ) (client : Client σ) (ctx : Context) (req : Request)
    (d : Duration) (w : σ) : Nat → σ
  | 0 => w
  | j + 1 =>
      (lib.selectDone ctx d (lib.clientDo client req (worldBefore lib client ctx req d w j)).2).2

/-- What attempt `j` returns on that path. -/
def attemptResult {σ : Type} (lib : Lib σ) (client : Client σ) (ctx : Context) (req : Request)
    (d : Duration) (w : σ) (j : Nat) : SendResult :=
  (lib.clientDo client req (worldBefore lib client ctx req d w j)).1

/-- The world that attempt `j` leaves on that path. -/
def worldAfter {σ : Type} (lib : Lib σ) (client : Client σ) (ctx : Context) (req : Request)
    (d : Duration) (w : σ) (j : Nat) : σ :=
  (lib.clientDo client req (worldBefore lib client ctx req d w j)).2

/-- Whether the context becomes done during the wait that follows attempt `j`
on that path. -/
def waitCancelled {σ : Type} (lib : Lib σ) (client : Client σ) (ctx : Context) (req : Request)
    (d : Duration) (w : σ) (j : Nat) : Bool :=
  (lib.selectDone ctx d (worldAfter lib client ctx req d w j)).1

/-- The value of the variable `err` when the loop condition is evaluated for
the `j`-th time on that path: nil at first, then the error of attempt `j - 1`. -/
def errBefore {σ : Type} (lib : Lib σ) (client : Client σ) (ctx : Context) (req : Request)
    (d : Duration) (w : σ) : Nat → Option GoError
  | 0 => none
  | j + 1 =>
      match attemptResult lib client ctx req d w j with
      | Except.error e => some e
      | Except.ok _ => none

/-! ## Middlewares that record the order of the calls -/

/-- A middleware that records `name ++ "-before"` with `push`, delegates to its
inner round tripper, and records `name ++ "-after"` when that returns.  Handed
a nil round tripper it delegates to `fallback`, as `LoggingMiddleware` does
with the default transport. -/
def markerMiddleware {σ : Type} (push : String → σ → σ) (fallback : RoundTrip σ)
    (name : String) : Middleware σ :=
  fun inner =>
    some (fun req w =>
      let w1 := push (name ++ "-before") w
      let sent :=
        match inner with
        | none => fallback req w1
        | some t => t req w1
      (sent.1, push (name ++ "-after") sent.2))

/-- The chain `mk(...(m2(m1(base)))...)` of the middlewares `[m1, ..., mk]`:
the last middleware of the list is applied last and is the outermost. -/
def chainOf {σ : Type} (base : RoundTripper σ) (ms : List (Middleware σ)) : RoundTripper σ :=
  ms.reverse.foldr (fun m inner => m inner) base

/-- What `client.Do` invokes for a transport: the transport itself, or the
default transport when it is nil. -/
def transportOf {σ : Type} (lib : Lib σ) (t : RoundTripper σ) : RoundTrip σ :=
  match t with
  | none => lib.defaultTransport
  | some rt => rt

/-- The property of `client.Do` that a successful exchange is one round trip
of the client's transport (the default transport when it is nil), returned
unchanged. -/
def DoIsOneRoundTrip {σ : Type} (lib : Lib σ) : Prop :=
  ∀ (c : Client σ) (req : Request) (w w1 : σ) (resp : Response),
    transportOf lib c.Transport req w = (Except.ok resp, w1) →
      lib.clientDo c req w = (Except.ok resp, w1)

/-! ## A scripted world

A concrete world on which the definitions can be run: the network answers from
a script, the context becomes done during a chosen wait, and everything that
is written is kept. -/

/-- The scripted world. -/
structure World where
  /-- the clock, in nanoseconds -/
  clock : Int
  /-- what the network answers to the coming round trips, in order -/
  replies : List SendResult
  /-- number of round trips that reached the network -/
  sent : Nat
  /-- number of `select` statements executed -/
  waited : Nat
  /-- the wait, by number, during which the context becomes done -/
  doneAt : Option Nat
  /-- what was written to `os.Stderr` -/
  stderr : List String
  /-- the observation log shared by the marker middlewares -/
  log : List String
  deriving DecidableEq, Repr

/-- The network of the scripted world: the next reply of the script, a refused
connection when the script is over. -/
def World.roundTrip : RoundTrip World :=
  fun _ w =>
    match w.replies with
    | [] => (Except.error "conn refused", { w with sent := w.sent + 1 })
    | r :: rest => (r, { w with replies := rest, sent := w.sent + 1 })

/-- The context becomes done during wait number `doneAt`; any other wait lasts
`d` nanoseconds. -/
def World.selectDone : Context → Duration → World → Bool × World :=
  fun _ d w =>
    if w.doneAt = some w.waited then (true, { w with waited := w.waited + 1 })
    else (false, { w with waited := w.waited + 1, clock := w.clock + max d 0 })

/-- Appends a marker to the observation log. -/
def World.push (marker : String) (w : World) : World :=
  { w with log := w.log ++ [marker] }

/-- The text of a byte sequence. -/
def textOf (data : List Nat) : String := String.mk (data.map Char.ofNat)

/-- Go `httputil.DumpResponse` on the scripted world.  With `body` it reads the
body to its end and puts back a reader that yields the same bytes; when the
read fails it returns the error and the body stays consumed. -/
def World.dumpResponse (resp : Response) (body : Bool) : Except GoError String × Response :=
  if body then
    match resp.Body.fault with
    | none => (Except.ok ("HTTP response\n" ++ textOf resp.Body.data), resp)
    | some err => (Except.error err, { resp with Body := ⟨[], some err⟩ })
  else (Except.ok "HTTP response\n", resp)

/-- Go `httputil.DumpRequestOut` on the scripted world, with the same
treatment of the request body. -/
def World.dumpRequestOut (req : Request) (body : Bool) : Except GoError String × Request :=
  if body then
    match req.Body with
    | none => (Except.ok (req.Method ++ " " ++ req.URL.Path ++ "\n"), req)
    | some b =>
        match b.fault with
        | none => (Except.ok (req.Method ++ " " ++ req.URL.Path ++ "\n" ++ textOf b.data), req)
        | some err => (Except.error err, { req with Body := some ⟨[], some err⟩ })
  else (Except.ok (req.Method ++ " " ++ req.URL.Path ++ "\n"), req)

/-- The standard library on the scripted world.  `url.Parse` knows the URLs of
the scenarios; `client.Do` is one round trip of the client's transport. -/
def scripted : Lib World where
  urlParse := fun s =>
    if s = "http://x/y?a=1" then
      Except.ok ⟨"http", "x", "/y", fun k => if k = "a" then ["1"] else []⟩
    else if s = "http://x/y" then Except.ok ⟨"http", "x", "/y", Values.empty⟩
    else Except.error "parse error"
  newRequestCheck := fun method _ =>
    if method ∈ ["GET", "POST", "PUT", "DELETE", "HEAD", "PATCH", "OPTIONS"] then none
    else some ("net/http: invalid method " ++ method)
  canonicalHeaderKey := fun key => key
  defaultTransport := World.roundTrip
  clientDo := fun c req w =>
    match c.Transport with
    | none => World.roundTrip req w
    | some rt => rt req w
  selectDone := World.selectDone
  now := fun w => w.clock
  stderrWrite := fun text w => { w with stderr := w.stderr ++ [text] }
  dumpRequestOut := World.dumpRequestOut
  dumpResponse := World.dumpResponse
  formatDuration := fun d => toString d ++ "ns"

/-- The initial scripted world: clock at zero, nothing sent or written. -/
def World.init (replies : List SendResult) (doneAt : Option Nat) : World :=
  ⟨0, replies, 0, 0, doneAt, [], []⟩

/-- Options with no header, body, middleware or query parameter, and logging
off. -/
def plainOptions (σ : Type) (maxRetries : Int) (retryWait : Duration) : RequestOptions σ :=
  ⟨[], none, maxRetries, retryWait, [], 0, [], LogLevelNone, false⟩

/-- A response with status 200 and the body `hi`. -/
def okResponse : Response := ⟨200, [], ⟨[104, 105], none⟩⟩

/-! ## Auxiliary definitions of the statements -/

/-- The request as the logging decorator hands it to the inner sender: the
request given, after `httputil.DumpRequestOut` when the level asks for a dump. -/
def requestAfterDump {σ : Type} (lib : Lib σ) (level : LogLevel) (req : Request) : Request :=
  if LogLevelBasic ≤ level then (lib.dumpRequestOut req (decide (level = LogLevelBody))).2
  else req

/-- The response as the logging decorator returns it: the response of the inner
sender, after `httputil.DumpResponse` when the level asks for a dump. -/
def responseAfterDump {σ : Type} (lib : Lib σ) (level : LogLevel) (resp : Response) : Response :=
  if LogLevelBasic ≤ level then (lib.dumpResponse resp (decide (level = LogLevelBody))).2
  else resp

/-- A middleware that tells the nil round tripper from any other: handed nil
it returns a transport that fails without sending, otherwise its argument. -/
def nilSensitive : Middleware World :=
  fun rt =>
    match rt with
    | none => some (fun _ w => (Except.error "no transport", w))
    | some t => some t

/-- The request that `makeRequest` builds for `GET http://x/y` with no header,
body or query parameter. -/
def plainRequest : Request := ⟨"GET", ⟨"http", "x", "/y", Values.empty⟩, Values.empty, none, 0⟩

/-- A response whose body yields `hi` and then fails with `unexpected EOF`. -/
def brokenResponse : Response := ⟨200, [], ⟨[104, 105], some "unexpected EOF"⟩⟩

/-- The property of the `httputil` dumps that the decorator relies on: a dump
without the body leaves the request or response as it was, whether it succeeds
or fails, and a dump with the body that succeeds has put back a body with the
bytes it read. -/
def DumpsRestore {σ : Type} (lib : Lib σ) : Prop :=
  (∀ req, (lib.dumpRequestOut req false).2 = req)
    ∧ (∀ req text reqLeft, lib.dumpRequestOut req true = (Except.ok text, reqLeft) →
        reqLeft = req)
    ∧ (∀ resp, (lib.dumpResponse resp false).2 = resp)
    ∧ (∀ resp text respLeft, lib.dumpResponse resp true = (Except.ok text, respLeft) →
        respLeft = resp)

/-- A request whose body yields `hi` and then fails with `unexpected EOF`. -/
def brokenRequest : Request :=
  ⟨"POST", ⟨"http", "x", "/y", Values.empty⟩, Values.empty,
    some ⟨[104, 105], some "unexpected EOF"⟩, 0⟩

/-- A sender that answers with the bytes it can read from the request body. -/
def echoTransport : RoundTrip World :=
  fun req w =>
    match req.Body with
    | none => (Except.ok ⟨200, [], ⟨[], none⟩⟩, w)
    | some b => (Except.ok ⟨200, [], ⟨b.data, none⟩⟩, w)

/-- The bytes a caller can read from the body of the response of a send. -/
def bodyBytes (res : SendResult) : List Nat :=
  match res with
  | Except.ok resp => resp.Body.data
  | Except.error _ => []

/-! ## The retry loop -/

theorem wrapInt_eq_self {x : Int} (h0 : 0 ≤ x) (h1 : x ≤ maxInt) : wrapInt x = x := by
  unfold wrapInt
  unfold maxInt at h1
  omega

theorem retryLoop_exit {σ : Type} (lib : Lib σ) (client : Client σ) (ctx : Context)
    (req : Request) (options : RequestOptions σ) (fuel : Nat) (i : Int) (err : Option GoError)
    (a b : Nat) (w : σ) (h : options.MaxRetries < i) :
    retryLoop lib client ctx req options (fuel + 1) i err a b w
      = some ⟨Outcome.returned none err, a, b, w⟩ := by
  have h2 : ¬ i ≤ options.MaxRetries := not_le.mpr h
  simp [retryLoop, h2]

theorem retryLoop_success {σ : Type} (lib : Lib σ) (client : Client σ) (ctx : Context)
    (req : Request) (options : RequestOptions σ) (fuel : Nat) (i : Int) (err : Option GoError)
    (a b : Nat) (w w1 : σ) (resp : Response) (h : i ≤ options.MaxRetries)
    (hdo : lib.clientDo client req w = (Except.ok resp, w1)) :
    retryLoop lib client ctx req options (fuel + 1) i err a b w
      = some ⟨Outcome.returned (some resp) none, a + 1, b, w1⟩ := by
  simp [retryLoop, h, hdo]

theorem retryLoop_cancel {σ : Type} (lib : Lib σ) (client : Client σ) (ctx : Context)
    (req : Request) (options : RequestOptions σ) (fuel : Nat) (i : Int) (err : Option GoError)
    (a b : Nat) (w w1 w2 : σ) (e : GoError) (h : i ≤ options.MaxRetries)
    (hdo : lib.clientDo client req w = (Except.error e, w1))
    (hsel : lib.selectDone ctx options.RetryWait w1 = (true, w2)) :
    retryLoop lib client ctx req options (fuel + 1) i err a b w
      = some ⟨Outcome.returned none (some "request canceled"), a + 1, b + 1, w2⟩ := by
  simp [retryLoop, h, hdo, hsel]

theorem retryLoop_retry {σ : Type} (lib : Lib σ) (client : Client σ) (ctx : Context)
    (req : Request) (options : RequestOptions σ) (fuel : Nat) (i : Int) (err : Option GoError)
    (a b : Nat) (w w1 w2 : σ) (e : GoError) (h : i ≤ options.MaxRetries)
    (hdo : lib.clientDo client req w = (Except.error e, w1))
    (hsel : lib.selectDone ctx options.RetryWait w1 = (false, w2)) :
    retryLoop lib client ctx req options (fuel + 1) i err a b w
      = retryLoop lib client ctx req options fuel (wrapInt (i + 1)) (some e) (a + 1) (b + 1) w2 := by
  simp [retryLoop, h, hdo, hsel]

/-- After `m` failed attempts, each followed by a wait that ran to its end,
the loop stands at its condition with counter `m`. -/
theorem retryLoop_failed_prefix {σ : Type} (lib : Lib σ) (client : Client σ) (ctx : Context)
    (req : Request) (options : RequestOptions σ) (w : σ) (m : Nat)
    (hm : (m : Int) ≤ options.MaxRetries + 1) (hmax : (m : Int) ≤ maxInt)
    (hfail : ∀ j, j < m → ∃ e, attemptResult lib client ctx req options.RetryWait w j
      = Except.error e)
    (hwait : ∀ j, j < m → waitCancelled lib client ctx req options.RetryWait w j = false)
    (fuel : Nat) :
    retryLoop lib client ctx req options (fuel + m) 0 none 0 0 w
      = retryLoop lib client ctx req options fuel m
          (errBefore lib client ctx req options.RetryWait w m) m m
          (worldBefore lib client ctx req options.RetryWait w m) := by
  induction m generalizing fuel with
  | zero => simp [errBefore, worldBefore]
  | succ m ih =>
      have hm1 : (m : Int) ≤ options.MaxRetries + 1 := by push_cast at hm; omega
      have hmax1 : (m : Int) ≤ maxInt := by push_cast at hmax; omega
      have ih1 := ih hm1 hmax1 (fun j hj => hfail j (Nat.lt_succ_of_lt hj))
        (fun j hj => hwait j (Nat.lt_succ_of_lt hj)) (fuel + 1)
      have hfuel : fuel + (m + 1) = fuel + 1 + m := by omega
      rw [hfuel, ih1]
      obtain ⟨e, he⟩ := hfail m (Nat.lt_succ_self m)
      have hw := hwait m (Nat.lt_succ_self m)
      have hle : (m : Int) ≤ options.MaxRetries := by push_cast at hm; omega
      have hdo : lib.clientDo client req (worldBefore lib client ctx req options.RetryWait w m)
          = (Except.error e, worldAfter lib client ctx req options.RetryWait w m) := by
        unfold attemptResult at he
        unfold worldAfter
        rw [← he]
      have hsel : lib.selectDone ctx options.RetryWait
            (worldAfter lib client ctx req options.RetryWait w m)
          = (false, worldBefore lib client ctx req options.RetryWait w (m + 1)) := by
        unfold waitCancelled at hw
        rw [← hw]
        rfl
      rw [retryLoop_retry lib client ctx req options fuel m _ m m _ _ _ e hle hdo hsel]
      have hwrap : wrapInt ((m : Int) + 1) = ((m + 1 : Nat) : Int) := by
        rw [wrapInt_eq_self (by omega) (by push_cast at hmax; omega)]
        push_cast
        rfl
      rw [hwrap]
      simp [errBefore, he]

/-- A call whose request is ready runs the retry loop on the client built from
the options. -/
theorem makeRequest_of_ready {σ : Type} (lib : Lib σ) (fuel : Nat) (ctx : Context)
    (method urlStr : String) (options : RequestOptions σ) (w : σ) (req : Request)
    (hprep : prepareRequest lib ctx method urlStr options = Prepared.ready req) :
    makeRequest lib fuel ctx method urlStr options w
      = retryLoop lib (buildClient lib options) ctx req options fuel 0 none 0 0 w := by
  simp [makeRequest, hprep]

/-- When attempts `0..i` fail, the waits after attempts `0..i-1` run to their
end and the context becomes done during the wait after attempt `i`, the call
returns the cancellation error after `i + 1` attempts and `i + 1` waits; `i`
may be any attempt the budget allows, the last one included. -/
theorem makeRequest_cancelled_wait {σ : Type} (lib : Lib σ) (ctx : Context)
    (method urlStr : String) (options : RequestOptions σ) (w : σ) (req : Request) (i : Nat)
    (hi : (i : Int) ≤ options.MaxRetries) (hint : options.MaxRetries ≤ maxInt)
    (hprep : prepareRequest lib ctx method urlStr options = Prepared.ready req)
    (hfail : ∀ j, j ≤ i → ∃ e,
      attemptResult lib (buildClient lib options) ctx req options.RetryWait w j = Except.error e)
    (hwait : ∀ j, j < i →
      waitCancelled lib (buildClient lib options) ctx req options.RetryWait w j = false)
    (hdone : waitCancelled lib (buildClient lib options) ctx req options.RetryWait w i = true)
    (fuel : Nat) (hfuel : i + 1 ≤ fuel) :
    makeRequest lib fuel ctx method urlStr options w
      = some ⟨Outcome.returned none (some "request canceled"), i + 1, i + 1,
          worldBefore lib (buildClient lib options) ctx req options.RetryWait w (i + 1)⟩ := by
  obtain ⟨f, rfl⟩ : ∃ f, fuel = f + 1 + i := ⟨fuel - (i + 1), by omega⟩
  rw [makeRequest_of_ready lib _ ctx method urlStr options w req hprep,
    retryLoop_failed_prefix lib _ ctx req options w i (by omega) (by omega)
      (fun j hj => hfail j (Nat.le_of_lt hj)) hwait (f + 1)]
  obtain ⟨e, he⟩ := hfail i (Nat.le_refl i)
  have hdo : lib.clientDo (buildClient lib options) req
        (worldBefore lib (buildClient lib options) ctx req options.RetryWait w i)
      = (Except.error e, worldAfter lib (buildClient lib options) ctx req options.RetryWait w i) := by
    unfold attemptResult at he
    unfold worldAfter
    rw [← he]
  have hsel : lib.selectDone ctx options.RetryWait
        (worldAfter lib (buildClient lib options) ctx req options.RetryWait w i)
      = (true, worldBefore lib (buildClient lib options) ctx req options.RetryWait w (i + 1)) := by
    unfold waitCancelled at hdone
    rw [← hdone]
    rfl
  exact retryLoop_cancel lib _ ctx req options f i _ i i _ _ _ e hi hdo hsel

theorem scripted_doIsOneRoundTrip : DoIsOneRoundTrip scripted := by
  intro c req w w1 resp h
  cases hc : c.Transport with
  | none => rw [hc] at h; simpa [scripted, transportOf, hc] using h
  | some rt => rw [hc] at h; simpa [scripted, transportOf, hc] using h

/-- C1: with `MaxRetries = n ≥ 0` (below the largest `int`), a sender that
fails on each of the attempts `0..n` and a context that is not done during any
wait, `makeRequest` calls the sender exactly `n + 1` times and returns no
response together with the error of attempt `n`, the last one. -/
theorem makeRequest_all_attempts_fail {σ : Type} (lib : Lib σ) (ctx : Context)
    (method urlStr : String) (options : RequestOptions σ) (w : σ) (req : Request) (n : Nat)
    (hn : options.MaxRetries = (n : Int)) (hint : (n : Int) < maxInt)
    (hprep : prepareRequest lib ctx method urlStr options = Prepared.ready req)
    (hfail : ∀ j, j ≤ n → ∃ e,
      attemptResult lib (buildClient lib options) ctx req options.RetryWait w j = Except.error e)
    (hwait : ∀ j, j ≤ n →
      waitCancelled lib (buildClient lib options) ctx req options.RetryWait w j = false) :
    ∃ e, attemptResult lib (buildClient lib options) ctx req options.RetryWait w n
        = Except.error e ∧
      ∀ fuel, n + 2 ≤ fuel →
        makeRequest lib fuel ctx method urlStr options w
          = some ⟨Outcome.returned none (some e), n + 1, n + 1,
              worldBefore lib (buildClient lib options) ctx req options.RetryWait w (n + 1)⟩ := by
  obtain ⟨e, he⟩ := hfail n (Nat.le_refl n)
  refine ⟨e, he, ?_⟩
  intro fuel hfuel
  obtain ⟨f, rfl⟩ : ∃ f, fuel = f + 1 + (n + 1) := ⟨fuel - (n + 2), by omega⟩
  rw [makeRequest_of_ready lib _ ctx method urlStr options w req hprep,
    retryLoop_failed_prefix lib _ ctx req options w (n + 1) (by rw [hn]; push_cast; omega)
      (by omega) (fun j hj => hfail j (Nat.lt_succ_iff.mp hj))
      (fun j hj => hwait j (Nat.lt_succ_iff.mp hj)) (f + 1),
    retryLoop_exit lib _ ctx req options f _ _ _ _ _ (by rw [hn]; push_cast; omega)]
  simp [errBefore, he]

/-- Witness of C1: `MaxRetries = 2`, three attempts that fail with `e0`, `e1`,
`e2`, a context that is never done: three calls of the sender, and the error
`e2` of the last attempt is returned. -/
theorem makeRequest_all_attempts_fail_witness :
    makeRequest scripted 4 0 "GET" "http://x/y" (plainOptions World 2 10)
        (World.init [Except.error "e0", Except.error "e1", Except.error "e2"] none)
      = some ⟨Outcome.returned none (some "e2"), 3, 3, ⟨30, [], 3, 3, none, [], []⟩⟩ := by
  obtain ⟨e, he, h⟩ := makeRequest_all_attempts_fail scripted 0 "GET" "http://x/y"
    (plainOptions World 2 10)
    (World.init [Except.error "e0", Except.error "e1", Except.error "e2"] none)
    plainRequest 2 rfl (by decide) rfl
    (fun j hj => by interval_cases j <;> exact ⟨_, rfl⟩)
    (fun j hj => by interval_cases j <;> rfl)
  have he2 : e = "e2" := (Except.error.inj he).symm
  subst he2
  rw [h 4 (le_refl 4)]
  rfl

/-- C2: with `MaxRetries = n ≥ 0` and `k ≤ n`, when attempts `0..k-1` fail, the
waits after them run to their end and attempt `k` returns a response,
`makeRequest` calls the sender exactly `k + 1` times and returns that response,
whatever it is, with a nil error. -/
theorem makeRequest_success_after_failures {σ : Type} (lib : Lib σ) (ctx : Context)
    (method urlStr : String) (options : RequestOptions σ) (w : σ) (req : Request) (n k : Nat)
    (resp : Response)
    (hn : options.MaxRetries = (n : Int)) (hint : (n : Int) ≤ maxInt) (hk : k ≤ n)
    (hprep : prepareRequest lib ctx method urlStr options = Prepared.ready req)
    (hfail : ∀ j, j < k → ∃ e,
      attemptResult lib (buildClient lib options) ctx req options.RetryWait w j = Except.error e)
    (hwait : ∀ j, j < k →
      waitCancelled lib (buildClient lib options) ctx req options.RetryWait w j = false)
    (hok : attemptResult lib (buildClient lib options) ctx req options.RetryWait w k
      = Except.ok resp) :
    ∀ fuel, k + 1 ≤ fuel →
      makeRequest lib fuel ctx method urlStr options w
        = some ⟨Outcome.returned (some resp) none, k + 1, k,
            worldAfter lib (buildClient lib options) ctx req options.RetryWait w k⟩ := by
  intro fuel hfuel
  obtain ⟨f, rfl⟩ : ∃ f, fuel = f + 1 + k := ⟨fuel - (k + 1), by omega⟩
  rw [makeRequest_of_ready lib _ ctx method urlStr options w req hprep,
    retryLoop_failed_prefix lib _ ctx req options w k (by rw [hn]; omega)
      (by have : (k : Int) ≤ n := by exact_mod_cast hk
          omega) hfail hwait (f + 1)]
  have hdo : lib.clientDo (buildClient lib options) req
        (worldBefore lib (buildClient lib options) ctx req options.RetryWait w k)
      = (Except.ok resp, worldAfter lib (buildClient lib options) ctx req options.RetryWait w k) := by
    unfold attemptResult at hok
    unfold worldAfter
    rw [← hok]
  exact retryLoop_success lib _ ctx req options f k _ k k _ _ resp
    (by rw [hn]; exact_mod_cast hk) hdo

/-- Witness of C2: `MaxRetries = 1`, a sender that fails once and then answers
with status 500: two calls of the sender, and the response is returned with a
nil error. -/
theorem makeRequest_success_after_failures_witness :
    makeRequest scripted 2 0 "GET" "http://x/y" (plainOptions World 1 10)
        (World.init [Except.error "e0", Except.ok ⟨500, [], ⟨[], none⟩⟩] none)
      = some ⟨Outcome.returned (some ⟨500, [], ⟨[], none⟩⟩) none, 2, 1,
          ⟨10, [], 2, 1, none, [], []⟩⟩ := by
  rw [makeRequest_success_after_failures scripted 0 "GET" "http://x/y"
    (plainOptions World 1 10)
    (World.init [Except.error "e0", Except.ok ⟨500, [], ⟨[], none⟩⟩] none)
    plainRequest 1 1 ⟨500, [], ⟨[], none⟩⟩ rfl (by decide) (le_refl 1) rfl
    (fun j hj => by interval_cases j; exact ⟨_, rfl⟩)
    (fun j hj => by interval_cases j; rfl)
    rfl 2 (le_refl 2)]
  rfl

/-- C3: with `MaxRetries = n ≥ 1` and `i < n`, when attempts `0..i` fail, the
earlier waits run to their end and the context becomes done during the wait
after attempt `i`, `makeRequest` returns no response and the error
`request canceled`, after exactly `i + 1` calls of the sender, fewer than
`n + 1`. -/
theorem makeRequest_cancel_during_wait {σ : Type} (lib : Lib σ) (ctx : Context)
    (method urlStr : String) (options : RequestOptions σ) (w : σ) (req : Request) (n i : Nat)
    (hn : options.MaxRetries = (n : Int)) (hint : (n : Int) ≤ maxInt) (hi : i < n)
    (hprep : prepareRequest lib ctx method urlStr options = Prepared.ready req)
    (hfail : ∀ j, j ≤ i → ∃ e,
      attemptResult lib (buildClient lib options) ctx req options.RetryWait w j = Except.error e)
    (hwait : ∀ j, j < i →
      waitCancelled lib (buildClient lib options) ctx req options.RetryWait w j = false)
    (hdone : waitCancelled lib (buildClient lib options) ctx req options.RetryWait w i = true) :
    (∀ fuel, i + 1 ≤ fuel →
      makeRequest lib fuel ctx method urlStr options w
        = some ⟨Outcome.returned none (some "request canceled"), i + 1, i + 1,
            worldBefore lib (buildClient lib options) ctx req options.RetryWait w (i + 1)⟩)
      ∧ i + 1 < n + 1 := by
  refine ⟨?_, by omega⟩
  intro fuel hfuel
  exact makeRequest_cancelled_wait lib ctx method urlStr options w req i
    (by rw [hn]; exact_mod_cast (Nat.le_of_lt hi)) (by rw [hn]; exact hint) hprep hfail hwait
    hdone fuel hfuel

/-- Witness of C3: `MaxRetries = 2`, a refused connection on every attempt,
and a context that becomes done during the wait after attempt 1: two calls of
the sender, fewer than three, and the error `request canceled`. -/
theorem makeRequest_cancel_during_wait_witness :
    makeRequest scripted 2 0 "GET" "http://x/y" (plainOptions World 2 10)
        (World.init [] (some 1))
      = some ⟨Outcome.returned none (some "request canceled"), 2, 2,
          ⟨10, [], 2, 2, some 1, [], []⟩⟩
    ∧ 1 + 1 < 2 + 1 := by
  have h := makeRequest_cancel_during_wait scripted 0 "GET" "http://x/y"
    (plainOptions World 2 10) (World.init [] (some 1)) plainRequest 2 1 rfl (by decide)
    (by decide) rfl
    (fun j hj => by interval_cases j <;> exact ⟨_, rfl⟩)
    (fun j hj => by interval_cases j; rfl)
    rfl
  refine ⟨?_, h.2⟩
  rw [h.1 2 (le_refl 2)]
  rfl

/-- C4, what the code does: with `MaxRetries = n ≥ 0` and attempts `0..n` all
failing, the `select` statement runs after the last attempt too, so the call
makes `n + 1` waits, and when the context becomes done during that last wait
it returns `request canceled` and not the error of the last attempt. -/
theorem makeRequest_waits_after_last_attempt {σ : Type} (lib : Lib σ) (ctx : Context)
    (method urlStr : String) (options : RequestOptions σ) (w : σ) (req : Request) (n : Nat)
    (hn : options.MaxRetries = (n : Int)) (hint : (n : Int) ≤ maxInt)
    (hprep : prepareRequest lib ctx method urlStr options = Prepared.ready req)
    (hfail : ∀ j, j ≤ n → ∃ e,
      attemptResult lib (buildClient lib options) ctx req options.RetryWait w j = Except.error e)
    (hwait : ∀ j, j < n →
      waitCancelled lib (buildClient lib options) ctx req options.RetryWait w j = false)
    (hdone : waitCancelled lib (buildClient lib options) ctx req options.RetryWait w n = true) :
    ∀ fuel, n + 1 ≤ fuel →
      makeRequest lib fuel ctx method urlStr options w
        = some ⟨Outcome.returned none (some "request canceled"), n + 1, n + 1,
            worldBefore lib (buildClient lib options) ctx req options.RetryWait w (n + 1)⟩ := by
  intro fuel hfuel
  exact makeRequest_cancelled_wait lib ctx method urlStr options w req n
    (by rw [hn]) (by rw [hn]; exact hint) hprep hfail hwait hdone fuel hfuel

/-- Witness of C4, the failing input: `MaxRetries = 0`, the only attempt is
refused, and the context becomes done during the wait that follows it: the
call waits once and returns `request canceled` instead of `conn refused`. -/
theorem makeRequest_waits_after_last_attempt_witness :
    makeRequest scripted 1 0 "GET" "http://x/y" (plainOptions World 0 10)
        (World.init [] (some 0))
      = some ⟨Outcome.returned none (some "request canceled"), 1, 1,
          ⟨0, [], 1, 1, some 0, [], []⟩⟩ := by
  rw [makeRequest_waits_after_last_attempt scripted 0 "GET" "http://x/y"
    (plainOptions World 0 10) (World.init [] (some 0)) plainRequest 0 rfl (by decide) rfl
    (fun j hj => by interval_cases j; exact ⟨_, rfl⟩)
    (fun j hj => absurd hj (Nat.not_lt_zero j))
    rfl 1 (le_refl 1)]
  rfl

/-! ## The middleware chain -/

theorem chainOf_cons {σ : Type} (base : RoundTripper σ) (m : Middleware σ)
    (ms : List (Middleware σ)) : chainOf base (m :: ms) = chainOf (m base) ms := by
  simp [chainOf, List.foldr_append]

theorem chainOf_append_one {σ : Type} (base : RoundTripper σ) (ms : List (Middleware σ))
    (m : Middleware σ) : chainOf base (ms ++ [m]) = m (chainOf base ms) := by
  simp [chainOf]

theorem applyMiddlewares_eq {σ : Type} (client : Client σ) (ms : List (Middleware σ)) :
    applyMiddlewares client ms = ⟨client.Timeout, chainOf client.Transport ms⟩ := by
  induction ms generalizing client with
  | nil => simp [applyMiddlewares, chainOf]
  | cons m rest ih => simp [applyMiddlewares, ih, chainOf_cons]

theorem buildClient_eq {σ : Type} (lib : Lib σ) (options : RequestOptions σ) :
    buildClient lib options
      = ⟨options.Timeout,
          if options.LogTransport then
            LoggingMiddleware lib (chainOf none options.Middlewares) options.LogLevel
          else chainOf none options.Middlewares⟩ := by
  unfold buildClient
  simp only [applyMiddlewares_eq]
  split <;> rfl

/-- C5, as the code has it: with `Middlewares = [A, B]`, logging off, and a
first attempt that succeeds, the markers are recorded in the order `B-before`,
`A-before`, (the base call), `A-after`, `B-after`: the last middleware of the
list is the outermost.  `A`, which is handed the nil round tripper of the fresh
client, delegates to `base`. -/
theorem makeRequest_middleware_order {σ : Type} (lib : Lib σ) (push : String → σ → σ)
    (base fallbackB : RoundTrip σ) (a b : String) (ctx : Context) (method urlStr : String)
    (options : RequestOptions σ) (w w1 : σ) (req : Request) (resp : Response)
    (hmw : options.Middlewares
      = [markerMiddleware push base a, markerMiddleware push fallbackB b])
    (hlog : options.LogTransport = false) (hretries : 0 ≤ options.MaxRetries)
    (hprep : prepareRequest lib ctx method urlStr options = Prepared.ready req)
    (hdo : DoIsOneRoundTrip lib)
    (hbase : base req (push (a ++ "-before") (push (b ++ "-before") w)) = (Except.ok resp, w1)) :
    ∀ fuel, 1 ≤ fuel →
      makeRequest lib fuel ctx method urlStr options w
        = some ⟨Outcome.returned (some resp) none, 1, 0,
            push (b ++ "-after") (push (a ++ "-after") w1)⟩ := by
  intro fuel hfuel
  obtain ⟨f, rfl⟩ : ∃ f, fuel = f + 1 := ⟨fuel - 1, by omega⟩
  rw [makeRequest_of_ready lib _ ctx method urlStr options w req hprep]
  have htr : transportOf lib (buildClient lib options).Transport req w
      = (Except.ok resp, push (b ++ "-after") (push (a ++ "-after") w1)) := by
    rw [buildClient_eq]
    simp [hlog, hmw, chainOf, markerMiddleware, transportOf, hbase]
  exact retryLoop_success lib _ ctx req options f 0 none 0 0 w _ resp hretries
    (hdo _ req w _ resp htr)

/-- Witness of C5: on the scripted world, the middlewares `[A, B]` around a
successful attempt leave the log `B-before, A-before, A-after, B-after`. -/
theorem makeRequest_middleware_order_witness :
    (makeRequest scripted 1 0 "GET" "http://x/y"
        { plainOptions World 0 0 with
          Middlewares := [markerMiddleware World.push World.roundTrip "A",
            markerMiddleware World.push World.roundTrip "B"] }
        (World.init [Except.ok okResponse] none)).map (fun run => (run.outcome, run.world.log))
      = some (Outcome.returned (some okResponse) none,
          ["B-before", "A-before", "A-after", "B-after"]) := by
  rw [makeRequest_middleware_order scripted World.push World.roundTrip World.roundTrip "A" "B" 0
    "GET" "http://x/y"
    { plainOptions World 0 0 with
      Middlewares := [markerMiddleware World.push World.roundTrip "A",
        markerMiddleware World.push World.roundTrip "B"] }
    (World.init [Except.ok okResponse] none)
    ⟨0, [], 1, 0, none, [], ["B-before", "A-before"]⟩ plainRequest okResponse rfl rfl
    (by decide) rfl scripted_doIsOneRoundTrip rfl 1 (le_refl 1)]
  rfl

/-- C5, counterexample: on the scripted world, two marker middlewares `[A, B]`
around a successful attempt leave the log `B-before, A-before, A-after,
B-after`, which is not the order `A-before, B-before, B-after, A-after`. -/
theorem marker_order_is_not_list_order :
    (makeRequest scripted 1 0 "GET" "http://x/y"
        { plainOptions World 0 0 with
          Middlewares := [markerMiddleware World.push World.roundTrip "A",
            markerMiddleware World.push World.roundTrip "B"] }
        (World.init [Except.ok okResponse] none)).map (fun run => run.world.log)
      = some ["B-before", "A-before", "A-after", "B-after"]
    ∧ (makeRequest scripted 1 0 "GET" "http://x/y"
        { plainOptions World 0 0 with
          Middlewares := [markerMiddleware World.push World.roundTrip "A",
            markerMiddleware World.push World.roundTrip "B"] }
        (World.init [Except.ok okResponse] none)).map (fun run => run.world.log)
      ≠ some ["A-before", "B-before", "B-after", "A-after"] := by
  refine ⟨by decide, by decide⟩

/-- C6, as the code has it: for every middleware list `[m1, ..., mk]` the
transport of the client is `mk(...(m2(m1(nil)))...)`, the chain started from the
nil round tripper of the fresh client (no transport can be supplied); with
`LogTransport` it is wrapped once more, outermost, by `LoggingMiddleware` with
`options.LogLevel`, and without `LogTransport` no logging decorator is added.
The default transport comes in only where a nil round tripper is used:
`LoggingMiddleware` logs around it when handed nil, and `client.Do` of a
successful exchange uses it when the whole chain is nil. -/
theorem buildClient_transport {σ : Type} (lib : Lib σ) (options : RequestOptions σ) :
    ((buildClient lib options).Transport
        = if options.LogTransport then
            LoggingMiddleware lib (chainOf none options.Middlewares) options.LogLevel
          else chainOf none options.Middlewares)
      ∧ (∀ (ms : List (Middleware σ)) (m : Middleware σ),
          chainOf none (ms ++ [m]) = m (chainOf none ms))
      ∧ chainOf (none : RoundTripper σ) [] = none
      ∧ (∀ (t : RoundTripper σ) (level : LogLevel),
          LoggingMiddleware lib t level
            = some (loggingRoundTripper.RoundTrip lib ⟨transportOf lib t, level⟩))
      ∧ transportOf lib none = lib.defaultTransport := by
  refine ⟨?_, ?_, ?_, ?_, ?_⟩
  · rw [buildClient_eq]
  · intro ms m
    exact chainOf_append_one none ms m
  · rfl
  · intro t level
    cases t <;> rfl
  · rfl

/-- C6, counterexample: with `Middlewares = [nilSensitive]` and a network that
would answer, the transport the code builds fails without sending, while the
chain started from the default transport, as the claim has it, sends the
request and gets the response. -/
theorem buildClient_base_is_nil :
    (transportOf scripted
          (buildClient scripted
            { plainOptions World 0 0 with Middlewares := [nilSensitive] }).Transport
          plainRequest (World.init [Except.ok okResponse] none)
        = (Except.error "no transport", World.init [Except.ok okResponse] none))
      ∧ (transportOf scripted (chainOf (some scripted.defaultTransport) [nilSensitive])
          plainRequest (World.init [Except.ok okResponse] none)).1 = Except.ok okResponse
      ∧ (buildClient scripted
            { plainOptions World 0 0 with Middlewares := [nilSensitive] }).Transport
          ≠ chainOf (some scripted.defaultTransport) [nilSensitive] := by
  refine ⟨by decide, by decide, ?_⟩
  intro h
  have h2 := congrArg (fun t => (transportOf scripted t plainRequest
    (World.init [Except.ok okResponse] none)).1) h
  revert h2
  decide

/-! ## Query parameters -/

theorem mergeQuery_strings (qp : List (String × GoValue))
    (hstr : ∀ kv, kv ∈ qp → ∃ s, kv.2 = GoValue.str s) (query : Values) :
    ∃ merged, mergeQuery query qp = Except.ok merged
      ∧ (∀ key, key ∉ qp.map Prod.fst → merged key = query key)
      ∧ ((qp.map Prod.fst).Nodup →
          ∀ key s, (key, GoValue.str s) ∈ qp → merged key = [s]) := by
  induction qp generalizing query with
  | nil => exact ⟨query, rfl, fun _ _ => rfl, fun _ _ _ h => absurd h (List.not_mem_nil _)⟩
  | cons kv rest ih =>
      obtain ⟨key, value⟩ := kv
      obtain ⟨s, hs⟩ := hstr (key, value) (List.mem_cons_self _ _)
      simp only at hs
      subst hs
      obtain ⟨merged, hm, hother, hset⟩ :=
        ih (fun kv hkv => hstr kv (List.mem_cons_of_mem _ hkv)) (Values.Set query key s)
      refine ⟨merged, by simpa [mergeQuery] using hm, ?_, ?_⟩
      · intro k hk
        simp only [List.map_cons, List.mem_cons, not_or] at hk
        rw [hother k hk.2]
        simp [Values.Set, hk.1]
      · intro hnodup k t hmem
        simp only [List.map_cons, List.nodup_cons] at hnodup
        rcases List.mem_cons.mp hmem with heq | hrest
        · have hk : k = key := congrArg Prod.fst heq
          have ht : GoValue.str t = GoValue.str s := congrArg Prod.snd heq
          have hts : t = s := GoValue.str.inj ht
          subst hk
          subst hts
          rw [hother k hnodup.1]
          simp [Values.Set]
        · exact hset hnodup.2 k t hrest

theorem mergeQuery_panics (qp : List (String × GoValue))
    (hbad : ∃ kv, kv ∈ qp ∧ ∀ s, kv.2 ≠ GoValue.str s) :
    ∃ v, (∃ key, (key, v) ∈ qp) ∧ (∀ s, v ≠ GoValue.str s)
      ∧ ∀ query, mergeQuery query qp = Except.error (Panic.typeAssertion v) := by
  induction qp with
  | nil =>
      obtain ⟨kv, hkv, _⟩ := hbad
      exact absurd hkv (List.not_mem_nil _)
  | cons kv rest ih =>
      obtain ⟨key, value⟩ := kv
      cases value with
      | str s =>
          obtain ⟨bad, hmem, hne⟩ := hbad
          have hrest : bad ∈ rest := by
            rcases List.mem_cons.mp hmem with heq | h
            · exact absurd (by rw [heq]) (hne s)
            · exact h
          obtain ⟨v, ⟨k, hk⟩, hv, hall⟩ := ih ⟨bad, hrest, hne⟩
          exact ⟨v, ⟨k, List.mem_cons_of_mem _ hk⟩, hv, fun query => by
            simpa [mergeQuery] using hall (Values.Set query key s)⟩
      | int n =>
          exact ⟨GoValue.int n, ⟨key, List.mem_cons_self _ _⟩, fun s h => GoValue.noConfusion h,
            fun query => rfl⟩
      | bool b =>
          exact ⟨GoValue.bool b, ⟨key, List.mem_cons_self _ _⟩, fun s h => GoValue.noConfusion h,
            fun query => rfl⟩
      | nil =>
          exact ⟨GoValue.nil, ⟨key, List.mem_cons_self _ _⟩, fun s h => GoValue.noConfusion h,
            fun query => rfl⟩

theorem setHeaders_URL {σ : Type} (lib : Lib σ) (req : Request) (hs : List (String × String)) :
    (setHeaders lib req hs).URL = req.URL := by
  induction hs generalizing req with
  | nil => rfl
  | cons kv rest ih =>
      obtain ⟨key, value⟩ := kv
      simp [setHeaders, ih]

/-- C7: for every input URL that parses and every `QueryParams` map with string
values (and a method that `http.NewRequest` accepts), the request that the
attempts send has, under each key of `QueryParams`, exactly the one value
supplied, whatever the URL had there, and under every other key the values of
the input URL. -/
theorem prepareRequest_query {σ : Type} (lib : Lib σ) (ctx : Context) (method urlStr : String)
    (options : RequestOptions σ) (u : URL)
    (hparse : lib.urlParse urlStr = Except.ok u)
    (hstr : ∀ kv, kv ∈ options.QueryParams → ∃ s, kv.2 = GoValue.str s)
    (hkeys : (options.QueryParams.map Prod.fst).Nodup)
    (hnew : ∀ u1, lib.newRequestCheck method u1 = none) :
    ∃ req, prepareRequest lib ctx method urlStr options = Prepared.ready req
      ∧ (∀ key s, (key, GoValue.str s) ∈ options.QueryParams → req.URL.Query key = [s])
      ∧ (∀ key, key ∉ options.QueryParams.map Prod.fst → req.URL.Query key = u.Query key)
      ∧ ∀ fuel w, makeRequest lib fuel ctx method urlStr options w
          = retryLoop lib (buildClient lib options) ctx req options fuel 0 none 0 0 w := by
  obtain ⟨merged, hm, hother, hset⟩ := mergeQuery_strings options.QueryParams hstr u.Query
  have hprep : prepareRequest lib ctx method urlStr options
      = Prepared.ready (setHeaders lib
          (Request.WithContext ⟨method, { u with RawQuery := merged }, Values.empty,
            options.Body, 0⟩ ctx) options.Headers) := by
    simp [prepareRequest, hparse, hm, newRequest, hnew]
  refine ⟨_, hprep, ?_, ?_, ?_⟩
  · intro key s hmem
    rw [setHeaders_URL]
    exact hset hkeys key s hmem
  · intro key hkey
    rw [setHeaders_URL]
    exact hother key hkey
  · intro fuel w
    exact makeRequest_of_ready lib fuel ctx method urlStr options w _ hprep

/-- Witness of C7, the scenario of the specification: `http://x/y?a=1` with
`QueryParams = {"b": "2"}` gives a request whose query holds exactly `a=1` and
`b=2`. -/
theorem prepareRequest_query_witness :
    ∃ req, prepareRequest scripted 0 "GET" "http://x/y?a=1"
          { plainOptions World 0 0 with QueryParams := [("b", GoValue.str "2")] }
        = Prepared.ready req
      ∧ req.URL.Query "a" = ["1"] ∧ req.URL.Query "b" = ["2"]
      ∧ ∀ key, key ≠ "a" → key ≠ "b" → req.URL.Query key = [] := by
  obtain ⟨req, hprep, hset, hkeep, _⟩ := prepareRequest_query scripted 0 "GET" "http://x/y?a=1"
    { plainOptions World 0 0 with QueryParams := [("b", GoValue.str "2")] }
    ⟨"http", "x", "/y", fun k => if k = "a" then ["1"] else []⟩ rfl
    (fun kv hkv => by
      simp only [plainOptions, List.mem_singleton] at hkv
      exact ⟨"2", by rw [hkv]⟩)
    (by simp [plainOptions]) (fun u1 => rfl)
  refine ⟨req, hprep, ?_, ?_, ?_⟩
  · rw [hkeep "a" (by simp [plainOptions])]
    rfl
  · exact hset "b" "2" (by simp [plainOptions])
  · intro key ha hb
    rw [hkeep key (by simp [plainOptions, hb])]
    simp [URL.Query, ha]

/-- C8, what the code does: for every call whose URL parses and whose
`QueryParams` holds at least one value that is no string, `makeRequest` does not
return: the type assertion `value.(string)` panics on such a value, before the
request is built, and the sender is called zero times. -/
theorem makeRequest_non_string_param {σ : Type} (lib : Lib σ) (ctx : Context)
    (method urlStr : String) (options : RequestOptions σ) (u : URL)
    (hparse : lib.urlParse urlStr = Except.ok u)
    (hbad : ∃ kv, kv ∈ options.QueryParams ∧ ∀ s, kv.2 ≠ GoValue.str s) :
    ∃ v, (∃ key, (key, v) ∈ options.QueryParams) ∧ (∀ s, v ≠ GoValue.str s)
      ∧ ∀ fuel w, makeRequest lib fuel ctx method urlStr options w
          = some ⟨Outcome.panicked (Panic.typeAssertion v), 0, 0, w⟩ := by
  obtain ⟨v, hkey, hv, hall⟩ := mergeQuery_panics options.QueryParams hbad
  refine ⟨v, hkey, hv, ?_⟩
  intro fuel w
  simp [makeRequest, prepareRequest, hparse, hall]

/-- Witness of C8: on the scripted world, `QueryParams = {"b": 2}` makes the
call panic on the integer `2`, with no attempt. -/
theorem makeRequest_non_string_param_witness :
    ∃ v, (∃ key, (key, v) ∈ [("b", GoValue.int 2)]) ∧ (∀ s, v ≠ GoValue.str s)
      ∧ ∀ fuel w, makeRequest scripted fuel 0 "GET" "http://x/y?a=1"
            { plainOptions World 2 10 with QueryParams := [("b", GoValue.int 2)] } w
          = some ⟨Outcome.panicked (Panic.typeAssertion v), 0, 0, w⟩ :=
  makeRequest_non_string_param scripted 0 "GET" "http://x/y?a=1"
    { plainOptions World 2 10 with QueryParams := [("b", GoValue.int 2)] }
    ⟨"http", "x", "/y", fun k => if k = "a" then ["1"] else []⟩ rfl
    ⟨("b", GoValue.int 2), List.mem_singleton.mpr rfl, fun _ h => GoValue.noConfusion h⟩

/-- C8, the failing input: `Get` of `http://x/y?a=1` with `QueryParams = {"b": 2}`
ends in the panic of the type assertion on the integer `2`; for no amount of
fuel does the call return an error, or anything else, to its caller. -/
theorem makeRequest_int_param_panics :
    (makeRequest scripted 1 0 "GET" "http://x/y?a=1"
        { plainOptions World 2 10 with QueryParams := [("b", GoValue.int 2)] }
        (World.init [] none)
      = some ⟨Outcome.panicked (Panic.typeAssertion (GoValue.int 2)), 0, 0, World.init [] none⟩)
    ∧ ¬ ∃ fuel resp err,
        (makeRequest scripted fuel 0 "GET" "http://x/y?a=1"
          { plainOptions World 2 10 with QueryParams := [("b", GoValue.int 2)] }
          (World.init [] none)).map (fun run => run.outcome)
        = some (Outcome.returned resp err) := by
  refine ⟨by decide, ?_⟩
  rintro ⟨fuel, resp, err, h⟩
  have hrun : makeRequest scripted fuel 0 "GET" "http://x/y?a=1"
      { plainOptions World 2 10 with QueryParams := [("b", GoValue.int 2)] }
      (World.init [] none)
      = some ⟨Outcome.panicked (Panic.typeAssertion (GoValue.int 2)), 0, 0,
          World.init [] none⟩ := by
    cases fuel <;> rfl
  rw [hrun] at h
  cases h

/-! ## Results of a call -/

/-- C9, what the code does: with a negative `MaxRetries` the loop body never
runs, and a call whose request was built returns a nil response together with
a nil error, without any attempt. -/
theorem makeRequest_negative_retries {σ : Type} (lib : Lib σ) (ctx : Context)
    (method urlStr : String) (options : RequestOptions σ) (w : σ) (req : Request)
    (hneg : options.MaxRetries < 0)
    (hprep : prepareRequest lib ctx method urlStr options = Prepared.ready req) :
    ∀ fuel, 1 ≤ fuel →
      makeRequest lib fuel ctx method urlStr options w
        = some ⟨Outcome.returned none none, 0, 0, w⟩ := by
  intro fuel hfuel
  obtain ⟨f, rfl⟩ : ∃ f, fuel = f + 1 := ⟨fuel - 1, by omega⟩
  rw [makeRequest_of_ready lib _ ctx method urlStr options w req hprep]
  exact retryLoop_exit lib _ ctx req options f 0 none 0 0 w hneg

/-- Witness of C9, the failing input: `MaxRetries = -1` on a network that would
answer: no attempt is made and the call returns a nil response with a nil
error. -/
theorem makeRequest_negative_retries_witness :
    makeRequest scripted 1 0 "GET" "http://x/y" (plainOptions World (-1) 10)
        (World.init [Except.ok okResponse] none)
      = some ⟨Outcome.returned none none, 0, 0, World.init [Except.ok okResponse] none⟩ :=
  makeRequest_negative_retries scripted 0 "GET" "http://x/y" (plainOptions World (-1) 10)
    (World.init [Except.ok okResponse] none) plainRequest (by decide) rfl 1 (le_refl 1)

/-! ## The logging decorator -/

theorem loggingRoundTrip_below_basic {σ : Type} (lib : Lib σ) (level : LogLevel)
    (inner : RoundTrip σ) (req : Request) (w : σ) (h : level < LogLevelBasic) :
    loggingRoundTripper.RoundTrip lib ⟨inner, level⟩ req w = inner req w := by
  have h2 : ¬ level ≥ LogLevelBasic := not_le.mpr h
  unfold loggingRoundTripper.RoundTrip
  simp only [h2, if_false]
  rcases hres : inner req w with ⟨res, w2⟩
  cases res <;> rfl

theorem scripted_dumpsRestore : DumpsRestore scripted := by
  refine ⟨?_, ?_, ?_, ?_⟩
  · intro req
    rfl
  · intro req text reqLeft h
    simp only [scripted, World.dumpRequestOut, if_true] at h
    cases hb : req.Body with
    | none =>
        rw [hb] at h
        simp only [Prod.mk.injEq] at h
        exact h.2.symm
    | some b =>
        rw [hb] at h
        cases hf : b.fault with
        | none =>
            simp only [hf, Prod.mk.injEq] at h
            exact h.2.symm
        | some err =>
            simp [hf] at h
  · intro resp
    rfl
  · intro resp text respLeft h
    simp only [scripted, World.dumpResponse, if_true] at h
    cases hf : resp.Body.fault with
    | none =>
        rw [hf] at h
        simp only [Prod.mk.injEq] at h
        exact h.2.symm
    | some err =>
        rw [hf] at h
        simp at h

/-- The steps of `RoundTrip`: at most one write, the one call of the inner
sender on the request as the request dump leaves it, and for a response the
response dump and one more write. -/
theorem loggingRoundTrip_steps {σ : Type} (lib : Lib σ) (level : LogLevel)
    (inner : RoundTrip σ) (req : Request) (w : σ) :
    ∃ w1,
      ((level < LogLevelBasic ∧ w1 = w)
        ∨ (LogLevelBasic ≤ level ∧ ∃ text, w1 = lib.stderrWrite text w))
      ∧ (∀ err w2, inner (requestAfterDump lib level req) w1 = (Except.error err, w2) →
          loggingRoundTripper.RoundTrip lib ⟨inner, level⟩ req w = (Except.error err, w2))
      ∧ (∀ resp w2, inner (requestAfterDump lib level req) w1 = (Except.ok resp, w2) →
          (loggingRoundTripper.RoundTrip lib ⟨inner, level⟩ req w).1
              = Except.ok (responseAfterDump lib level resp)
            ∧ ((level < LogLevelBasic
                  ∧ (loggingRoundTripper.RoundTrip lib ⟨inner, level⟩ req w).2 = w2)
                ∨ (LogLevelBasic ≤ level ∧ ∃ text,
                    (loggingRoundTripper.RoundTrip lib ⟨inner, level⟩ req w).2
                      = lib.stderrWrite text w2))) := by
  by_cases hlevel : LogLevelBasic ≤ level
  · have hge : level ≥ LogLevelBasic := hlevel
    rcases hreq : lib.dumpRequestOut req (decide (level = LogLevelBody)) with ⟨dump, req1⟩
    have hreq1 : requestAfterDump lib level req = req1 := by
      simp [requestAfterDump, hlevel, hreq]
    cases dump with
    | error err0 =>
        refine ⟨lib.stderrWrite ("Error dumping request: " ++ err0 ++ "\n") w,
          Or.inr ⟨hlevel, _, rfl⟩, ?_, ?_⟩
        · intro err w2 hinner
          rw [hreq1] at hinner
          simp [loggingRoundTripper.RoundTrip, hge, hreq, hinner]
        · intro resp w2 hinner
          rw [hreq1] at hinner
          rcases hresp : lib.dumpResponse resp (decide (level = LogLevelBody)) with ⟨rdump, resp1⟩
          refine ⟨?_, Or.inr ⟨hlevel, ?_⟩⟩
          · cases rdump <;>
              simp [loggingRoundTripper.RoundTrip, hge, hreq, hinner, hresp, responseAfterDump]
          · cases rdump with
            | error e1 =>
                exact ⟨"Error dumping response: " ++ e1 ++ "\n", by
                  simp [loggingRoundTripper.RoundTrip, hge, hreq, hinner, hresp]⟩
            | ok t1 =>
                exact ⟨"Response (in " ++ lib.formatDuration (lib.now w2 - lib.now w) ++ "): \n"
                  ++ t1 ++ "\n", by
                  simp [loggingRoundTripper.RoundTrip, hge, hreq, hinner, hresp]⟩
    | ok text0 =>
        refine ⟨lib.stderrWrite ("Request: \n" ++ text0 ++ "\n") w,
          Or.inr ⟨hlevel, _, rfl⟩, ?_, ?_⟩
        · intro err w2 hinner
          rw [hreq1] at hinner
          simp [loggingRoundTripper.RoundTrip, hge, hreq, hinner]
        · intro resp w2 hinner
          rw [hreq1] at hinner
          rcases hresp : lib.dumpResponse resp (decide (level = LogLevelBody)) with ⟨rdump, resp1⟩
          refine ⟨?_, Or.inr ⟨hlevel, ?_⟩⟩
          · cases rdump <;>
              simp [loggingRoundTripper.RoundTrip, hge, hreq, hinner, hresp, responseAfterDump]
          · cases rdump with
            | error e1 =>
                exact ⟨"Error dumping response: " ++ e1 ++ "\n", by
                  simp [loggingRoundTripper.RoundTrip, hge, hreq, hinner, hresp]⟩
            | ok t1 =>
                exact ⟨"Response (in " ++ lib.formatDuration (lib.now w2 - lib.now w) ++ "): \n"
                  ++ t1 ++ "\n", by
                  simp [loggingRoundTripper.RoundTrip, hge, hreq, hinner, hresp]⟩
  · have hlt : level < LogLevelBasic := not_le.mp hlevel
    have hreq1 : requestAfterDump lib level req = req := by simp [requestAfterDump, hlevel]
    refine ⟨w, Or.inl ⟨hlt, rfl⟩, ?_, ?_⟩
    · intro err w2 hinner
      rw [hreq1] at hinner
      rw [loggingRoundTrip_below_basic lib level inner req w hlt, hinner]
    · intro resp w2 hinner
      rw [hreq1] at hinner
      rw [loggingRoundTrip_below_basic lib level inner req w hlt, hinner]
      exact ⟨by simp [responseAfterDump, hlevel], Or.inl ⟨hlt, rfl⟩⟩

/-- The request handed to the inner sender is the request given, unless the
level is `LogLevelBody` and the dump of the request with its body failed. -/
theorem requestAfterDump_cases {σ : Type} (lib : Lib σ) (level : LogLevel) (req : Request)
    (hdumps : DumpsRestore lib) :
    requestAfterDump lib level req = req
      ∨ (level = LogLevelBody
          ∧ ∃ e, lib.dumpRequestOut req true = (Except.error e, requestAfterDump lib level req)) := by
  by_cases hlevel : LogLevelBasic ≤ level
  · by_cases hbody : level = LogLevelBody
    · rcases hd : lib.dumpRequestOut req true with ⟨dump, reqLeft⟩
      have hafter : requestAfterDump lib level req = reqLeft := by
        have hbb : LogLevelBasic ≤ LogLevelBody := by decide
        simp [requestAfterDump, hbody, hbb, hd]
      cases dump with
      | error e => exact Or.inr ⟨hbody, e, by rw [hafter]⟩
      | ok text => exact Or.inl (by rw [hafter]; exact hdumps.2.1 req text reqLeft hd)
    · exact Or.inl (by simp [requestAfterDump, hlevel, hbody, hdumps.1 req])
  · exact Or.inl (by simp [requestAfterDump, hlevel])

/-- The response returned is the response of the inner sender, unless the
level is `LogLevelBody` and the dump of the response with its body failed. -/
theorem responseAfterDump_cases {σ : Type} (lib : Lib σ) (level : LogLevel) (resp : Response)
    (hdumps : DumpsRestore lib) :
    responseAfterDump lib level resp = resp
      ∨ (level = LogLevelBody
          ∧ ∃ e, lib.dumpResponse resp true
              = (Except.error e, responseAfterDump lib level resp)) := by
  by_cases hlevel : LogLevelBasic ≤ level
  · by_cases hbody : level = LogLevelBody
    · rcases hd : lib.dumpResponse resp true with ⟨dump, respLeft⟩
      have hafter : responseAfterDump lib level resp = respLeft := by
        have hbb : LogLevelBasic ≤ LogLevelBody := by decide
        simp [responseAfterDump, hbody, hbb, hd]
      cases dump with
      | error e => exact Or.inr ⟨hbody, e, by rw [hafter]⟩
      | ok text => exact Or.inl (by rw [hafter]; exact hdumps.2.2.2 resp text respLeft hd)
    · exact Or.inl (by simp [responseAfterDump, hlevel, hbody, hdumps.2.2.1 resp])
  · exact Or.inl (by simp [responseAfterDump, hlevel])

/-- C10, as the code has it: for every log level, request and inner sender,
`RoundTrip` calls the inner sender exactly once and returns the error it
returned, whether or not a dump failed.  The request handed on is the request
given, and the response returned is the response the inner sender returned,
at every level other than `LogLevelBody` (failed dumps included) and at
`LogLevelBody` whenever the dump succeeds; then the body bytes the caller reads
are the bytes the inner sender produced.  Only after a dump with the body that
failed, at `LogLevelBody`, is the request or the response passed on as the
failed dump left it.  At `LogLevelNone` the call is the inner call and nothing
is written; at `LogLevelBasic` and above one text is written before the call
and one after a response.  The `httputil` dumps are taken to restore what they
read (`DumpsRestore`). -/
theorem loggingRoundTrip_frame {σ : Type} (lib : Lib σ) (level : LogLevel)
    (inner : RoundTrip σ) (req : Request) (w : σ) (hdumps : DumpsRestore lib) :
    (loggingRoundTripper.RoundTrip lib ⟨inner, LogLevelNone⟩ req w = inner req w)
    ∧ ∃ reqSent w1,
        (reqSent = req
          ∨ (level = LogLevelBody
              ∧ ∃ e, lib.dumpRequestOut req true = (Except.error e, reqSent)))
        ∧ (level ≠ LogLevelBody → reqSent = req)
        ∧ (∀ text reqLeft, lib.dumpRequestOut req true = (Except.ok text, reqLeft) →
            reqSent = req)
        ∧ ((level < LogLevelBasic ∧ w1 = w)
          ∨ (LogLevelBasic ≤ level ∧ ∃ text, w1 = lib.stderrWrite text w))
        ∧ (∀ err w2, inner reqSent w1 = (Except.error err, w2) →
            loggingRoundTripper.RoundTrip lib ⟨inner, level⟩ req w = (Except.error err, w2))
        ∧ (∀ resp w2, inner reqSent w1 = (Except.ok resp, w2) →
            ((loggingRoundTripper.RoundTrip lib ⟨inner, level⟩ req w).1 = Except.ok resp
              ∨ (level = LogLevelBody ∧ ∃ e respLeft,
                  lib.dumpResponse resp true = (Except.error e, respLeft)
                    ∧ (loggingRoundTripper.RoundTrip lib ⟨inner, level⟩ req w).1
                        = Except.ok respLeft))
            ∧ (level ≠ LogLevelBody →
                (loggingRoundTripper.RoundTrip lib ⟨inner, level⟩ req w).1 = Except.ok resp)
            ∧ (∀ text respLeft, lib.dumpResponse resp true = (Except.ok text, respLeft) →
                (loggingRoundTripper.RoundTrip lib ⟨inner, level⟩ req w).1 = Except.ok resp
                  ∧ bodyBytes (loggingRoundTripper.RoundTrip lib ⟨inner, level⟩ req w).1
                      = resp.Body.data)
            ∧ ((level < LogLevelBasic
                  ∧ (loggingRoundTripper.RoundTrip lib ⟨inner, level⟩ req w).2 = w2)
                ∨ (LogLevelBasic ≤ level ∧ ∃ text,
                    (loggingRoundTripper.RoundTrip lib ⟨inner, level⟩ req w).2
                      = lib.stderrWrite text w2))) := by
  refine ⟨loggingRoundTrip_below_basic lib LogLevelNone inner req w (by decide), ?_⟩
  obtain ⟨w1, hw1, herr, hok⟩ := loggingRoundTrip_steps lib level inner req w
  have hreq := requestAfterDump_cases lib level req hdumps
  refine ⟨requestAfterDump lib level req, w1, hreq, ?_, ?_, hw1, herr, ?_⟩
  · intro hne
    rcases hreq with h | ⟨hb, _⟩
    · exact h
    · exact absurd hb hne
  · intro text reqLeft hd
    rcases hreq with h | ⟨_, e, he⟩
    · exact h
    · rw [hd] at he
      simp at he
  · intro resp w2 hinner
    obtain ⟨hres, hworld⟩ := hok resp w2 hinner
    have hresp := responseAfterDump_cases lib level resp hdumps
    have hcases : (loggingRoundTripper.RoundTrip lib ⟨inner, level⟩ req w).1 = Except.ok resp
        ∨ (level = LogLevelBody ∧ ∃ e respLeft,
            lib.dumpResponse resp true = (Except.error e, respLeft)
              ∧ (loggingRoundTripper.RoundTrip lib ⟨inner, level⟩ req w).1
                  = Except.ok respLeft) := by
      rcases hresp with h | ⟨hb, e, he⟩
      · exact Or.inl (by rw [hres, h])
      · exact Or.inr ⟨hb, e, _, he, hres⟩
    refine ⟨hcases, ?_, ?_, hworld⟩
    · intro hne
      rcases hcases with h | ⟨hb, _⟩
      · exact h
      · exact absurd hb hne
    · intro text respLeft hd
      have hexact : (loggingRoundTripper.RoundTrip lib ⟨inner, level⟩ req w).1
          = Except.ok resp := by
        rcases hcases with h | ⟨_, e, left, he, _⟩
        · exact h
        · rw [hd] at he
          simp at he
      exact ⟨hexact, by rw [hexact]; rfl⟩

/-- Witness of C10: on the scripted world at `LogLevelBody`, a response with
the body `hi` comes back unchanged, after one write for the request and one for
the response; at `LogLevelBasic` a response whose body fails comes back
unchanged; at `LogLevelNone` the call is the inner call. -/
theorem loggingRoundTrip_frame_witness :
    loggingRoundTripper.RoundTrip scripted ⟨World.roundTrip, LogLevelBody⟩ plainRequest
        (World.init [Except.ok okResponse] none)
      = (Except.ok okResponse,
          ⟨0, [], 1, 0, none, ["Request: \nGET /y\n\n", "Response (in 0ns): \nHTTP response\nhi\n"],
            []⟩)
    ∧ (loggingRoundTripper.RoundTrip scripted ⟨World.roundTrip, LogLevelBasic⟩ plainRequest
        (World.init [Except.ok brokenResponse] none)).1 = Except.ok brokenResponse
    ∧ loggingRoundTripper.RoundTrip scripted ⟨World.roundTrip, LogLevelNone⟩ plainRequest
        (World.init [Except.ok okResponse] none)
      = World.roundTrip plainRequest (World.init [Except.ok okResponse] none) :=
  ⟨by decide, by decide,
    (loggingRoundTrip_frame scripted LogLevelBody World.roundTrip plainRequest
      (World.init [Except.ok okResponse] none) scripted_dumpsRestore).1⟩

/-- C10, counterexample: at `LogLevelBody`, when the inner sender returns a
response whose body yields two bytes and then fails, `DumpResponse` fails, and
from the response that `RoundTrip` returns the caller can read none of the two
bytes the inner sender produced.  Likewise, when the body of the request given
fails after two bytes, `DumpRequestOut` fails, and the inner sender is handed a
request from which it reads none of them. -/
theorem loggingRoundTrip_failed_dump_loses_body :
    bodyBytes (World.roundTrip plainRequest (World.init [Except.ok brokenResponse] none)).1
        = [104, 105]
    ∧ bodyBytes (loggingRoundTripper.RoundTrip scripted ⟨World.roundTrip, LogLevelBody⟩
          plainRequest (World.init [Except.ok brokenResponse] none)).1 = []
    ∧ (loggingRoundTripper.RoundTrip scripted ⟨World.roundTrip, LogLevelBody⟩ plainRequest
          (World.init [Except.ok brokenResponse] none)).1
        ≠ (World.roundTrip plainRequest (World.init [Except.ok brokenResponse] none)).1
    ∧ bodyBytes (echoTransport brokenRequest (World.init [] none)).1 = [104, 105]
    ∧ bodyBytes (loggingRoundTripper.RoundTrip scripted ⟨echoTransport, LogLevelBody⟩
          brokenRequest (World.init [] none)).1 = [] := by
  refine ⟨by decide, by decide, by decide, by decide, by decide⟩

end HttpGoLib
